import Mathlib

/-!
Verification development for the TestBed remote-agent result pipeline
(`src/trunk/ragent.py`).  The Python 2 source is embedded shallowly:

* Python values that flow through the `Machine.summary` dictionary are
  `PyVal` (`None`, `str`, `int`); Python truthiness is `PyVal.falsy`.
* Python dictionaries keyed by strings are association lists
  (`List (String × α)`); `dictSet` models `d[k] = v` (update in place if the
  key exists, append otherwise), `dictGet?` models lookup.
* Python string operations (`in`, `split`, `lstrip`, `strip`) are modelled on
  `List Char` by structural recursion so that everything evaluates by `rfl`
  and `decide`.
* Statements that raise uncaught exceptions are modelled in
  `Except PyError`; an `Except.error` result means the Python method raised
  and its caller received the exception.
-/

namespace Ragent

/-- A value stored in one of the Python dictionaries of `ragent.py`:
`None`, a string, or an integer (the only kinds that occur). -/
inductive PyVal where
  | none
  | str (s : String)
  | int (n : Int)
  deriving DecidableEq

/-- Python truthiness test `not v` as used by `if not self.summary[item]`:
`None`, the empty string and `0` are falsy. -/
def PyVal.falsy : PyVal → Bool
  | .none => true
  | .str s => s = ""
  | .int n => n = 0

/-- The uncaught exceptions the embedded code can raise. -/
inductive PyError where
  | attributeError
  | nameError
  | typeError
  | indexError
  | valueError
  deriving DecidableEq

/-- Decidable equality of `Except` results, so concrete runs can be checked
by `decide`. -/
def exceptDecEq {ε α : Type} [DecidableEq ε] [DecidableEq α] :
    (a b : Except ε α) → Decidable (a = b)
  | Except.error e, Except.error f =>
    if h : e = f then isTrue (by rw [h]) else isFalse (by simp [h])
  | Except.error _, Except.ok _ => isFalse (by simp)
  | Except.ok _, Except.error _ => isFalse (by simp)
  | Except.ok a, Except.ok b =>
    if h : a = b then isTrue (by rw [h]) else isFalse (by simp [h])

instance {ε α : Type} [DecidableEq ε] [DecidableEq α] : DecidableEq (Except ε α) :=
  exceptDecEq

/-- `d[k] = v` on a Python dict modelled as an association list: replace the
value of an existing key in place, append a fresh key at the end. -/
def dictSet {α : Type} : List (String × α) → String → α → List (String × α)
  | [], k, v => [(k, v)]
  | p :: rest, k, v => if p.1 = k then (k, v) :: rest else p :: dictSet rest k v

/-- Dictionary lookup `d.get(k)`; `none` when the key is absent. -/
def dictGet? {α : Type} : List (String × α) → String → Option α
  | [], _ => none
  | p :: rest, k => if p.1 = k then some p.2 else dictGet? rest k

/-- The key set of a dict, in iteration-irrelevant list form. -/
abbrev dictKeys {α : Type} (d : List (String × α)) : List String :=
  d.map Prod.fst

/-- Python whitespace as recognized by `str.split()` / `str.strip()`. -/
def pyIsSpace (c : Char) : Bool :=
  c = ' ' || c = '\t' || c = '\n' || c = '\r' || c = '\x0b' || c = '\x0c'

/-- Is `pre` a prefix of `l`?  Returns the rest of `l` after `pre` when so. -/
def dropPrefixOf? : List Char → List Char → Option (List Char)
  | [], l => some l
  | _ :: _, [] => Option.none
  | a :: as, b :: bs => if a = b then dropPrefixOf? as bs else Option.none

/-- Worker for `pySplitOn`: scans `l`, cutting at each occurrence of the
(non-empty) separator `sep`.  `fuel` bounds the recursion; it is initialized
to the length of the scanned list, which suffices because every step consumes
at least one character. -/
def splitOnFuel (sep : List Char) : Nat → List Char → List Char → List (List Char)
  | _, [], acc => [acc.reverse]
  | 0, l, acc => [acc.reverse ++ l]
  | fuel + 1, c :: rest, acc =>
    match dropPrefixOf? sep (c :: rest) with
    | some remaining => acc.reverse :: splitOnFuel sep fuel remaining []
    | Option.none => splitOnFuel sep fuel rest (c :: acc)

/-- Python `s.split(sep)` for a non-empty separator string: cut at every
non-overlapping occurrence of `sep`, scanning left to right; `n` occurrences
yield `n + 1` fields.  (Python raises `ValueError` on an empty separator; the
embedded code never passes one, and we return `[s]` in that dead case.) -/
def pySplitOn (s sep : String) : List String :=
  if sep.toList.isEmpty then [s]
  else (splitOnFuel sep.toList s.toList.length s.toList []).map List.asString

/-- Python substring test `needle in hay` for a non-empty needle, expressed
through `pySplitOn`: the needle occurs in `hay` exactly when splitting on it
produces at least two fields.  Using the same scanner for `in` and `split`
mirrors their consistency in Python. -/
def strContains (hay needle : String) : Bool :=
  match pySplitOn hay needle with
  | _ :: _ :: _ => true
  | _ => false

/-- `fields[1]` of `fields = line.split(marker)`.  Every call site first
checks `marker in line`, which guarantees at least two fields, so the
default is never observable. -/
def pyField1 (line marker : String) : String :=
  (pySplitOn line marker).getD 1 ""

/-- Python `s.lstrip()`: drop leading whitespace only. -/
def pyLstrip (s : String) : String :=
  (s.toList.dropWhile pyIsSpace).asString

/-- Python `s.strip()`: drop whitespace at both ends. -/
def pyStrip (s : String) : String :=
  (((s.toList.dropWhile pyIsSpace).reverse.dropWhile pyIsSpace).reverse).asString

/-- Worker for `pySplitWS`. -/
def splitWSFuel : List Char → List Char → List String
  | [], acc => if acc.isEmpty then [] else [acc.reverse.asString]
  | c :: rest, acc =>
    if pyIsSpace c then
      if acc.isEmpty then splitWSFuel rest []
      else acc.reverse.asString :: splitWSFuel rest []
    else splitWSFuel rest (c :: acc)

/-- Python `line.split()` (no argument): split on runs of whitespace and
discard empty fields. -/
def pySplitWS (s : String) : List String :=
  splitWSFuel s.toList []

/-!  ## The `Machine` inventory extractor (`ragent.py` lines 788-1181)

`Machine.__init__` declares one dict per hardware component mapping fact keys
to marker strings (plus a `command` entry naming the external command), the
`summary` dict holding every canonical fact key, and the fixed component scan
order.  `GetInventory` parses one command's output into `summary`;
`RunInventory` drives the scan and the post-passes. -/

namespace Machine

/-- `self.bios` (lines 839-843), minus the `command` entry, which
`GetInventory` skips (`if item != 'command'`). -/
def bios : List (String × String) :=
  [("bios_date", "Release Date:"),
   ("bios_vendor", "Vendor:"),
   ("bios_version", "Version")]

/-- `self.memory` (lines 845-847). -/
def memory : List (String × String) :=
  [("mem_size", "size:")]

/-- `self.processor` (lines 830-837). -/
def processor : List (String × String) :=
  [("cpu_bits", "width:"),
   ("cpu_capability", "capabilities:"),
   ("cpu_capacity", "capacity:"),
   ("cpu_model", "product:"),
   ("cpu_speed", "size:"),
   ("cpu_vendor", "vendor:")]

/-- `self.nic` (lines 855-862). -/
def nic : List (String × String) :=
  [("nic_config", "configuration:"),
   ("nic_mac", "serial:"),
   ("nic_model", "product:"),
   ("nic_speed", "capacity:"),
   ("nic_vendor", "vendor:"),
   ("nic_width", "width:")]

/-- `self.storage` (lines 864-871). -/
def storage : List (String × String) :=
  [("dsk_config", "configuration:"),
   ("dsk_model", "product:"),
   ("dsk_speed", "clock:"),
   ("dsk_type", "description:"),
   ("dsk_vendor", "vendor:"),
   ("dsk_width", "width:")]

/-- `self.system` (lines 822-828). -/
def system : List (String × String) :=
  [("form", "description:"),
   ("model", "product:"),
   ("serial", "serial:"),
   ("sysconfig", "capabilities:"),
   ("vendor", "vendor:")]

/-- `self.video` (lines 849-853). -/
def video : List (String × String) :=
  [("video_memory", "size:"),
   ("video_model", "product:"),
   ("video_vendor", "vendor:")]

/-- The machine fact table: `self.summary`. -/
abbrev Summary := List (String × PyVal)

/-- `self.summary` as initialized in `Machine.__init__` (lines 885-923):
every canonical fact key mapped to `None`, except `cpu_qty` which starts at
the integer `0`. -/
def initSummary : Summary :=
  [("arch", PyVal.none),
   ("bios_date", PyVal.none),
   ("bios_vendor", PyVal.none),
   ("bios_version", PyVal.none),
   ("cpu_bits", PyVal.none),
   ("cpu_capability", PyVal.none),
   ("cpu_capacity", PyVal.none),
   ("cpu_model", PyVal.none),
   ("cpu_qty", PyVal.int 0),
   ("cpu_speed", PyVal.none),
   ("cpu_vendor", PyVal.none),
   ("dsk_config", PyVal.none),
   ("dsk_model", PyVal.none),
   ("dsk_speed", PyVal.none),
   ("dsk_type", PyVal.none),
   ("dsk_vendor", PyVal.none),
   ("dsk_width", PyVal.none),
   ("form", PyVal.none),
   ("kernel", PyVal.none),
   ("mem_size", PyVal.none),
   ("model", PyVal.none),
   ("nic_config", PyVal.none),
   ("nic_mac", PyVal.none),
   ("nic_model", PyVal.none),
   ("nic_speed", PyVal.none),
   ("nic_vendor", PyVal.none),
   ("nic_width", PyVal.none),
   ("node", PyVal.none),
   ("os_desc", PyVal.none),
   ("os_distrib", PyVal.none),
   ("os_rel", PyVal.none),
   ("os_rev", PyVal.none),
   ("serial", PyVal.none),
   ("sysconfig", PyVal.none),
   ("vendor", PyVal.none),
   ("video_memory", PyVal.none),
   ("video_model", PyVal.none),
   ("video_vendor", PyVal.none)]

/-- `self.summary[k]`.  All reads in the embedded code hit existing keys
(checked by `_TestDictKeys`), so the `PyVal.none` default of a missing key is
never observable there. -/
def sGet (s : Summary) (k : String) : PyVal :=
  (dictGet? s k).getD PyVal.none

/-- The marker counted into `cpu_qty`: `cpu_marker = '*-cpu'` (line 1154). -/
def cpuMarker : String := "*-cpu"

/-- The inner loop of `GetInventory` over one output line (lines 1175-1179):
for each `(item, key)` pair of the component dict (other than `command`),
if the marker occurs in the line and `summary[item]` is falsy, store
`line.split(marker)[1].lstrip()`.  The iteration order over the component
dict does not affect the result, because each pair touches only its own
(distinct) summary key. -/
def procLine (comp : List (String × String)) (s : Summary) (line : String) : Summary :=
  match comp with
  | [] => s
  | p :: rest =>
    procLine rest
      (if strContains line p.2 && (sGet s p.1).falsy then
        dictSet s p.1 (PyVal.str (pyLstrip (pyField1 line p.2)))
      else s) line

/-- The `for line in cmdoutput.splitlines()` loop of `GetInventory`
(lines 1172-1179), carrying the running `cpu_count` and summary. -/
def invScan (comp : List (String × String)) :
    List String → Nat → Summary → Nat × Summary
  | [], c, s => (c, s)
  | line :: rest, c, s =>
    invScan comp rest
      (if strContains line cpuMarker then c + 1 else c)
      (procLine comp s line)

/-- Number of lines of `out` containing the CPU-section marker. -/
def countCpu (out : List String) : Nat :=
  (out.filter (fun l => strContains l cpuMarker)).length

/-- `Machine.GetInventory(component)` (lines 1138-1181), with the external
command's output supplied as its list of lines: scan the lines, then
`if cpu_count > 0: self.summary['cpu_qty'] = cpu_count`. -/
def GetInventory (comp : List (String × String)) (out : List String)
    (s : Summary) : Summary :=
  let r := invScan comp out 0 s
  if 0 < r.1 then dictSet r.2 "cpu_qty" (PyVal.int r.1) else r.2

/-- The external inputs consumed by `Machine.RunInventory`: one output (as
lines) per component in scan order, the `platform.uname()` fields used at
lines 1109-1112, and the lines of the `lspci` fallback command of
lines 1116-1122. -/
structure InvInput where
  biosOut : List String
  memoryOut : List String
  processorOut : List String
  nicOut : List String
  storageOut : List String
  systemOut : List String
  videoOut : List String
  unameNode : String
  unameKernel : String
  unameArch : String
  lspciOut : List String

/-- `self.components` (lines 877-884) paired with each component's output:
the fixed scan order bios, memory, processor, nic, storage, system, video. -/
def compOutPairs (i : InvInput) : List (List (String × String) × List String) :=
  [(bios, i.biosOut),
   (memory, i.memoryOut),
   (processor, i.processorOut),
   (nic, i.nicOut),
   (storage, i.storageOut),
   (system, i.systemOut),
   (video, i.videoOut)]

/-- `for item in self.components: self.GetInventory(item)` (lines 1106-1107). -/
def scanPairs : List (List (String × String) × List String) → Summary → Summary
  | [], s => s
  | p :: rest, s => scanPairs rest (GetInventory p.1 p.2 s)

/-- The `lspci` fallback loop for `video_memory` (lines 1119-1122): each
` prefetchable` line is split on `=`; `memsize[1]` raises `IndexError` when
the line has no `=`; otherwise `video_memory` is set to `memsize[1][:-1]`. -/
def videoLoop : List String → Summary → Except PyError Summary
  | [], s => Except.ok s
  | line :: rest, s =>
    if strContains line " prefetchable" then
      match pySplitOn line "=" with
      | _ :: f1 :: _ =>
        videoLoop rest (dictSet s "video_memory" (PyVal.str (f1.dropRight 1)))
      | _ => Except.error PyError.indexError
    else videoLoop rest s

/-- Lines 1114-1122 of `RunInventory`: the fallback runs only when
`video_memory` is still falsy. -/
def videoFallback (lspci : List String) (s : Summary) : Except PyError Summary :=
  if (sGet s "video_memory").falsy then videoLoop lspci s else Except.ok s

/-- The fill pass of `RunInventory` (lines 1124-1126): every falsy summary
value is replaced by the sentinel string `"unknown"`. -/
def fillUnknown (s : Summary) : Summary :=
  s.map (fun p => if p.2.falsy then (p.1, PyVal.str "unknown") else p)

/-- Leap-year rule of the Gregorian calendar, as used by Python's
`time`/`datetime` validity checks. -/
def isLeapYear (y : Nat) : Bool :=
  (y % 4 = 0 && y % 100 ≠ 0) || y % 400 = 0

/-- Days in a month, for the `datetime.datetime` day-range check. -/
def daysInMonth (y m : Nat) : Nat :=
  if m = 2 then (if isLeapYear y then 29 else 28)
  else if m = 4 ∨ m = 6 ∨ m = 9 ∨ m = 11 then 30
  else 31

/-- All characters of a non-empty string are digits. -/
def allDigits (s : String) : Bool :=
  !s.toList.isEmpty && s.toList.all Char.isDigit

/-- Decimal value of a digit string (`int(s)` on an all-digit string). -/
def digitsVal : List Char → Nat → Nat
  | [], acc => acc
  | c :: rest, acc => digitsVal rest (acc * 10 + (c.toNat - '0'.toNat))

/-- `int(s)` for the all-digit strings accepted by `allDigits`. -/
def strToNat (s : String) : Nat :=
  digitsVal s.toList 0

/-- `time.strptime(s, "%m/%d/%Y")` followed by `datetime.datetime(*t[0:5])`
(line 1129-1130), modelled as a total parser: the string must be three
all-digit fields separated by `/` (1-2 digits for month and day, at most 4
for the year, as the C `strptime` directives accept), with month 1-12 and a
day valid for that month and year (`strptime` checks the 1-31 range, the
`datetime` constructor the exact month length); year 0 is rejected by
`datetime`.  Any failure raises `ValueError` in the source, modelled as
`none`. -/
def parseMDY (s : String) : Option (Nat × Nat × Nat) :=
  match pySplitOn s "/" with
  | [ms, ds, ys] =>
    if allDigits ms && ms.toList.length ≤ 2 && allDigits ds && ds.toList.length ≤ 2
        && allDigits ys && ys.toList.length ≤ 4 then
      let m := strToNat ms
      let d := strToNat ds
      let y := strToNat ys
      if 1 ≤ m && m ≤ 12 && 1 ≤ d && d ≤ daysInMonth y m && 1 ≤ y then
        some (m, d, y)
      else Option.none
    else Option.none
  | _ => Option.none

/-- Zero-pad a month or day to two digits, as `strftime` `%m`/`%d` do. -/
def pad2 (n : Nat) : String :=
  if n < 10 then "0" ++ toString n else toString n

/-- Line 1129-1131: re-format `bios_date` as
`datetime.datetime.strftime(newdate, "%Y/%m/%d")`.  Python 2's `strftime`
additionally raises `ValueError` for years before 1900, so the whole
normalization succeeds exactly when the string parses as `MM/DD/YYYY` with
year ≥ 1900. -/
def normBiosDate (s : String) : Option String :=
  match parseMDY s with
  | some (m, d, y) =>
    if 1900 ≤ y then some (toString y ++ "/" ++ pad2 m ++ "/" ++ pad2 d)
    else Option.none
  | Option.none => Option.none

/-- `RunInventory` up to and including the `"unknown"` fill pass
(lines 1106-1126): scan all components, overwrite `node`/`kernel`/`arch`
with the `platform.uname()` fields, run the `video_memory` fallback, fill
falsy values with `"unknown"`.  (`ReadLSBRel` is not called by
`RunInventory`, so the `os_*` keys are filled like any other unset key.) -/
def preNormalize (i : InvInput) : Except PyError Summary :=
  let s0 := scanPairs (compOutPairs i) initSummary
  let s1 := dictSet (dictSet (dictSet s0
      "node" (PyVal.str i.unameNode))
      "kernel" (PyVal.str i.unameKernel))
      "arch" (PyVal.str i.unameArch)
  match videoFallback i.lspciOut s1 with
  | Except.error e => Except.error e
  | Except.ok s2 => Except.ok (fillUnknown s2)

/-- `Machine.RunInventory` (lines 1088-1136).  The date normalization at
lines 1128-1131 is not guarded by any `try`: when `bios_date` does not parse
(for instance when it was filled with `"unknown"`), the `ValueError` from
`strptime` propagates and the method aborts before the field/value list
step, so no fact table is delivered. -/
def RunInventory (i : InvInput) : Except PyError Summary :=
  match preNormalize i with
  | Except.error e => Except.error e
  | Except.ok s =>
    match sGet s "bios_date" with
    | PyVal.str bd =>
      match normBiosDate bd with
      | some nd => Except.ok (dictSet s "bios_date" (PyVal.str nd))
      | Option.none => Except.error PyError.valueError
    | _ => Except.error PyError.typeError

end Machine

/-!  ## The `LogParser` class (`ragent.py` lines 1242-1770) -/

namespace LogParser

/-- `LogParser.SUITE_CATEGORY` (lines 1251-1258), in the order in which
`for key in self.SUITE_CATEGORY` (line 1384) iterates it.  The source is
Python 2, where a dict literal is an open-addressing hash table and `for`
visits the slots in table order, not declaration order.  For these seven
keys (inserted in declaration order Accept, DBench, LTP, Net_Stress, Stress,
System_Stress, UnixBench; the table grows from 8 to 32 slots on the sixth
insertion) the slot order under CPython 2's string hash — identical on
32-bit and 64-bit builds, hash randomization being off by default — is the
order below. -/
def SUITE_CATEGORY : List (String × String) :=
  [("UnixBench", "BYTE UNIX Benchmarks"),
   ("Stress", "Stress Test"),
   ("LTP", "Linux Test Project"),
   ("Accept", "PyreRing Test Report"),
   ("System_Stress", "System Stress Duration"),
   ("DBench", "dbench"),
   ("Net_Stress", "NetPerf Benchmark")]

/-- The same signature table in its declaration order (lines 1251-1258).
This definition follows the specification's words — "ties … are resolved by
table declaration order" — and exists only to be compared with the
behaviour of the code, which iterates in `SUITE_CATEGORY` (slot) order. -/
def SUITE_CATEGORY_declOrder : List (String × String) :=
  [("Accept", "PyreRing Test Report"),
   ("DBench", "dbench"),
   ("LTP", "Linux Test Project"),
   ("Net_Stress", "NetPerf Benchmark"),
   ("Stress", "Stress Test"),
   ("System_Stress", "System Stress Duration"),
   ("UnixBench", "BYTE UNIX Benchmarks")]

/-- `LogParser.LOG_KEYS` (lines 1259-1266): per-dialect
`[successToken, failureToken]` pairs.  (Membership only is used, so the
dict's iteration order is irrelevant.) -/
def LOG_KEYS : List (String × (String × String)) :=
  [("Accept", ("SETUP", "TEARDOWN")),
   ("DBench", ("Throughput", "Failed")),
   ("LTP", ("PASS", "FAIL")),
   ("Net_Stress", ("remote results obtained", "could not")),
   ("Stress", ("PASS", "FAIL")),
   ("System_Stress", ("successful run completed", "failed run completed"))]

/-- `LogParser._IsTestResult(line, type)` (lines 1756-1757).  Every caller
passes a `type` present in `LOG_KEYS` (a missing key would raise `KeyError`
in Python; that path is dead and modelled as `false`). -/
def IsTestResult (line ty : String) : Bool :=
  match dictGet? LOG_KEYS ty with
  | some p => strContains line p.1 || strContains line p.2
  | Option.none => false

/-- The inner dialect test of `_GetFunction` on one line (lines 1383-1387):
the first signature of the table, in iteration order, occurring in the line,
if any. -/
def lineDialect (line : String) : Option String :=
  (SUITE_CATEGORY.find? (fun p => strContains line p.2)).map Prod.fst

/-- `LogParser._GetFunction` (lines 1362-1390) restricted to the dialect it
selects: scan the lines in file order and return the dialect of the first
line containing any signature.  When no line matches, the source logs the
error message and — despite its docstring's `Raises: LogError` and the
comment "Create an error message and raise it" — falls off the end,
returning `None`; the embedded result is `none`. -/
def GetFunction : List String → Option String
  | [] => Option.none
  | line :: rest =>
    match lineDialect line with
    | some d => some d
    | Option.none => GetFunction rest

/-- The same first-matching-line scan resolving a multi-signature line by
the table's declaration order, following the specification's words; used
only for comparison with `GetFunction`. -/
def GetFunctionDeclOrder : List String → Option String
  | [] => Option.none
  | line :: rest =>
    match (SUITE_CATEGORY_declOrder.find? (fun p => strContains line p.2)).map
        Prod.fst with
    | some d => some d
    | Option.none => GetFunctionDeclOrder rest

/-- `LogParser._GetSubString(line, sep=':')` (lines 1739-1754): split on the
separator; with fewer than two fields (separator absent) log an error and
return the whole line unchanged, otherwise return `sections[1].strip()`. -/
def GetSubString (line : String) (sep : String := ":") : String :=
  match pySplitOn line sep with
  | _ :: second :: _ => pyStrip second
  | _ => line

/-- `LogParser._GetShortHostName(line)` (lines 1759-1770): extract the value
with `_GetSubString` (default separator) and truncate at the first `.`. -/
def GetShortHostName (line : String) : String :=
  (pySplitOn (GetSubString line) ".").getD 0 ""

/-- The `tokens` dict of `ProcessLog` (lines 1311-1326).  Iteration order
over this dict is irrelevant to the state it produces: each key writes only
its own `mach` entry. -/
def tokens : List (String × String) :=
  [("arch", "Architecture:"),
   ("biosdate", "Bios Date:"),
   ("code", "Codename:"),
   ("cpu", "Processor Model:"),
   ("cpu_quantity", "Number of Processors:"),
   ("dist", "Distribution:"),
   ("kernel", "Kernel Version:"),
   ("memory", "System Memory:"),
   ("model", "System Model:"),
   ("node", "Host Name:"),
   ("release", "OS Release:"),
   ("score", "System Benchmarks Index Score"),
   ("serial", "System Serial:"),
   ("start", "Start Time:"),
   ("version", "LTP_Release:")]

/-- The per-session machine-override dict `mach`, values `None` until a
token matches. -/
abbrev Mach := List (String × PyVal)

/-- `mach = dict([(key, None) for key in tokens.iterkeys()])` (line 1330). -/
def initMach : Mach :=
  tokens.map (fun p => (p.1, PyVal.none))

/-- The worker of `_SetMachineName` (lines 1715-1737): build `valuedict`
from every token whose marker occurs in the line, with the `node` and
`start` special cases. -/
def smLoop : List (String × String) → String → List (String × String) →
    List (String × String)
  | [], _, vd => vd
  | p :: rest, line, vd =>
    smLoop rest line
      (if strContains line p.2 then
        if p.1 = "node" then dictSet vd p.1 (GetShortHostName line)
        else if p.1 = "start" then dictSet vd p.1 (pyStrip (pyField1 line p.2))
        else dictSet vd p.1 (GetSubString line)
      else vd)

/-- `LogParser._SetMachineName(tokens, line)` (lines 1715-1737). -/
def SetMachineName (tok : List (String × String)) (line : String) :
    List (String × String) :=
  smLoop tok line []

/-- `for key in tempdict: mach[key] = tempdict[key]` as it appears after
every `_SetMachineName` call. -/
def applyTemp (mach : Mach) (temp : List (String × String)) : Mach :=
  match temp with
  | [] => mach
  | p :: rest => applyTemp (dictSet mach p.1 (PyVal.str p.2)) rest

/-- The session state populated by the dialect parsers.  `LogParser.__init__`
(lines 1268-1302) creates `tests`, `results`, `suites`, `output` and the
scalar fields, but never creates `comp_names` or `comp_set`; those two are
therefore `Option`-valued here, `none` meaning the attribute does not exist
on the instance, so that touching it raises. -/
structure SessionSt where
  tests : List String
  results : List (String × String)
  suites : List String
  comp_names : Option (List String)
  comp_set : Option (List (String × List String))
  description : Option String
  deriving DecidableEq

/-- The state of a fresh `LogParser` as `__init__` leaves it. -/
def initSession : SessionSt :=
  { tests := [], results := [], suites := [],
    comp_names := Option.none, comp_set := Option.none,
    description := Option.none }

/-- Accessing a possibly-missing instance attribute: `AttributeError` when
it was never assigned. -/
def pyAttr {α : Type} : Option α → Except PyError α
  | Option.none => Except.error PyError.attributeError
  | some a => Except.ok a

/-- `self.comp_set[comp].add(name)` / `self.comp_set[comp] = set([name])`
(the `if comp in self.comp_set` pattern of the parsers), on an existing
`comp_set` dict.  Python sets are unordered; a set is modelled as a
duplicate-free list via `List.insert`. -/
def compSetAdd (cs : List (String × List String)) (comp name : String) :
    List (String × List String) :=
  match dictGet? cs comp with
  | some old => dictSet cs comp (old.insert name)
  | Option.none => dictSet cs comp [name]

/-- The `for line in log` loop of `_ParseLTPLog` (lines 1454-1467).  A
result line is split on whitespace; `sections[0]`/`sections[1]` raise
`IndexError` when absent.  Note there is no duplicate check before
`self.tests.append` here.  (A raised error aborts `ProcessLog`, so the
partially mutated session it would leave behind is not observable; the
embedding simply stops at the error.) -/
def ltpLoop (logtype : String) :
    List String → SessionSt → Mach → Except PyError (SessionSt × Mach)
  | [], st, mach => Except.ok (st, mach)
  | line :: rest, st, mach =>
    if IsTestResult line logtype then
      let sections := pySplitWS line
      if 1 < sections.length then
        match st.comp_set with
        | Option.none => Except.error PyError.typeError
        | some cs =>
          ltpLoop logtype rest
            { st with
              tests := st.tests ++ [sections.getD 0 ""],
              results := dictSet st.results (sections.getD 0 "") (sections.getD 1 ""),
              comp_set := some (compSetAdd cs "kernel" (sections.getD 0 "")) }
            mach
      else Except.error PyError.indexError
    else ltpLoop logtype rest st (applyTemp mach (SetMachineName tokens line))

/-- `LogParser._ParseLTPLog` (lines 1433-1467).  Its first statement,
`self.comp_names.append(comp)`, touches the `comp_names` attribute that
`__init__` never created: on a fresh session this raises
`AttributeError` before any line is parsed. -/
def ParseLTPLog (logtype : String) (log : List String) (st : SessionSt)
    (mach : Mach) : Except PyError (SessionSt × Mach) :=
  match st.comp_names with
  | Option.none => Except.error PyError.attributeError
  | some cn =>
    ltpLoop logtype log
      { st with comp_names := some (cn ++ ["kernel"]),
                suites := st.suites ++ ["LTP"] }
      mach

/-- The `for line in log` loop of `_ParseStressLog` (lines 1494-1511): a
result line with more than one whitespace field appends `sections[0]` to
`tests` **only if not already present**, then records the outcome; a
`Stress Test:` line sets the description; any other line is scanned for
tokens. -/
def stressLoop (logtype : String) :
    List String → SessionSt → Mach → Except PyError (SessionSt × Mach)
  | [], st, mach => Except.ok (st, mach)
  | line :: rest, st, mach =>
    if IsTestResult line logtype then
      if 1 < (pySplitWS line).length then
        match st.comp_set with
        | Option.none => Except.error PyError.typeError
        | some cs =>
          stressLoop logtype rest
            { st with
              tests :=
                if (pySplitWS line).getD 0 "" ∈ st.tests then st.tests
                else st.tests ++ [(pySplitWS line).getD 0 ""],
              results := dictSet st.results ((pySplitWS line).getD 0 "")
                ((pySplitWS line).getD 1 ""),
              comp_set := some (compSetAdd cs "stress" ((pySplitWS line).getD 0 "")) }
            mach
      else stressLoop logtype rest st mach
    else if strContains line "Stress Test:" then
      stressLoop logtype rest { st with description := some (GetSubString line) } mach
    else stressLoop logtype rest st (applyTemp mach (SetMachineName tokens line))

/-- `LogParser._ParseStressLog` (lines 1469-1511); like the LTP parser it
starts with `self.comp_names.append(comp)` and therefore raises
`AttributeError` on a fresh session. -/
def ParseStressLog (logtype : String) (log : List String) (st : SessionSt)
    (mach : Mach) : Except PyError (SessionSt × Mach) :=
  match st.comp_names with
  | Option.none => Except.error PyError.attributeError
  | some cn =>
    stressLoop logtype log
      { st with comp_names := some (cn ++ ["stress"]),
                suites := st.suites ++ ["stress"] }
      mach

/-- Models Python `eval` as applied to a `Suites:` line (line 1423), whose
logged value is a list literal of single-quoted strings such as
`['suite1', 'suite2']`.  Text outside this fragment makes `eval` raise (or
evaluate an arbitrary expression); both are modelled as `nameError`. -/
def evalStrList (s : String) : Except PyError (List String) :=
  let t := pyStrip s
  if t.toList.take 1 = ['['] && t.toList.getLastD ' ' = ']' then
    let inner := (t.toList.drop 1).dropLast.asString
    if pyStrip inner = "" then Except.ok []
    else
      let items := (pySplitOn inner ",").map pyStrip
      if items.all (fun it =>
          it.toList.take 1 = ['\''] && it.toList.getLastD ' ' = '\'' &&
          2 ≤ it.toList.length) then
        Except.ok (items.map (fun it => (it.toList.drop 1).dropLast.asString))
      else Except.error PyError.nameError
  else Except.error PyError.nameError

/-- The inline token scan of `_ParsePRLog` (lines 1424-1430): like
`_SetMachineName` but writing straight into `mach` and with no `start`
special case. -/
def prTokenScan (tok : List (String × String)) (mach : Mach) (line : String) :
    Mach :=
  match tok with
  | [] => mach
  | p :: rest =>
    prTokenScan rest
      (if strContains line p.2 then
        if p.1 = "node" then dictSet mach p.1 (PyVal.str (GetShortHostName line))
        else dictSet mach p.1 (PyVal.str (GetSubString line))
      else mach) line

/-- The `for line in log` loop of `_ParsePRLog` (lines 1411-1430).  The local
`testcase_name` persists across iterations (Python function scope), so it is
threaded as an `Option String`; using it while still unbound raises
`NameError`.  On a `TESTCASE:` line the name is the last `/`-segment of
`sections[1]` (when there are at least two fields), the status is
`sections[2]` (`IndexError` when absent), and the name is appended to
`tests` with **no** duplicate check. -/
def prLoop (logtype : String) (tok : List (String × String)) :
    List String → SessionSt → Mach → Option String →
    Except PyError (SessionSt × Mach)
  | [], st, mach, _ => Except.ok (st, mach)
  | line :: rest, st, mach, tcName =>
    if strContains line "TESTCASE:" then
      if IsTestResult line logtype then prLoop logtype tok rest st mach tcName
      else
        let sections := pySplitWS line
        let tcName' :=
          if 1 < sections.length then
            match pySplitOn (sections.getD 1 "") "/" with
            | [] => tcName
            | l => some (l.getLastD "")
          else tcName
        match tcName' with
        | Option.none => Except.error PyError.nameError
        | some name =>
          if 2 < sections.length then
            prLoop logtype tok rest
              { st with tests := st.tests ++ [name],
                        results := dictSet st.results name (sections.getD 2 "") }
              mach tcName'
          else Except.error PyError.indexError
    else if strContains line "Suites:" then
      if IsTestResult line logtype then prLoop logtype tok rest st mach tcName
      else
        match evalStrList (GetSubString line) with
        | Except.ok ss => prLoop logtype tok rest { st with suites := ss } mach tcName
        | Except.error e => Except.error e
    else prLoop logtype tok rest st (prTokenScan tok mach line) tcName

/-- `LogParser._ParsePRLog` (lines 1392-1430).  It first sets
`tokens['version'] = 'Kernel Version'` and does not touch
`comp_names`/`comp_set`, so on a fresh session it runs to completion for
well-formed lines. -/
def ParsePRLog (logtype : String) (log : List String) (st : SessionSt)
    (mach : Mach) : Except PyError (SessionSt × Mach) :=
  prLoop logtype (dictSet tokens "version" "Kernel Version") log st mach
    Option.none

/-- The import list of `ragent.py` (lines 53-64): `datetime`, `glob`,
`optparse`, `os`, `platform`, `shutil`, `sys`, `tempfile`, `time`,
`MySQLdb`, `harness`.  Neither `emailmessage` nor `logging` is imported. -/
def ragentImports : List String :=
  ["datetime", "glob", "optparse", "os", "platform", "shutil", "sys",
   "tempfile", "time", "MySQLdb", "harness"]

/-- The counting loop of `SendSummary` (lines 1661-1669): tally
`(passed, failed, errored, timedOut)` over the outcome values; a value
outside the closed set `PASS`/`FAIL`/`ERROR`/`TIMEOUT` increments no
counter. -/
def tallyResults (results : List (String × String)) : Nat × Nat × Nat × Nat :=
  match results with
  | [] => (0, 0, 0, 0)
  | p :: rest =>
    let t := tallyResults rest
    if p.2 = "PASS" then (t.1 + 1, t.2.1, t.2.2.1, t.2.2.2)
    else if p.2 = "FAIL" then (t.1, t.2.1 + 1, t.2.2.1, t.2.2.2)
    else if p.2 = "ERROR" then (t.1, t.2.1, t.2.2.1 + 1, t.2.2.2)
    else if p.2 = "TIMEOUT" then (t.1, t.2.1, t.2.2.1, t.2.2.2 + 1)
    else t

/-- `LogParser.SendSummary` (lines 1645-1685).  Its first statement,
`message = emailmessage.EmailMessage()`, names a module that `ragent.py`
never imports, raising `NameError`; the next, `ts_url = ... % (self.projid,
build.id)`, reads `self.projid`, which no code ever assigns
(`AttributeError`).  Only after those two lines comes the tally loop, so the
method always raises before counting and never delivers the four counters. -/
def SendSummary (projid : Option String) (results : List (String × String)) :
    Except PyError (Nat × Nat × Nat × Nat) :=
  if "emailmessage" ∈ ragentImports then
    match pyAttr projid with
    | Except.error e => Except.error e
    | Except.ok _ => Except.ok (tallyResults results)
  else Except.error PyError.nameError

end LogParser

/-!  ## Concrete example inputs used by the claim checks -/

/-- Extract the summary of a successful `RunInventory`; the empty summary
stands in for the (never inspected) failure case. -/
def resSummary (e : Except PyError Machine.Summary) : Machine.Summary :=
  match e with
  | Except.ok s => s
  | Except.error _ => []

/-- An inventory input whose bios output carries a parseable date, whose
processor output consists of the bare marker line `product:` (so `cpu_model`
is committed as the empty string), and which is otherwise silent. -/
def exInv1 : Machine.InvInput :=
  { biosOut := ["Release Date: 03/14/2008"]
    memoryOut := []
    processorOut := ["product:"]
    nicOut := []
    storageOut := []
    systemOut := []
    videoOut := []
    unameNode := "host1"
    unameKernel := "2.6.32"
    unameArch := "x86_64"
    lspciOut := [] }

/-- The summary `exInv1` extracts. -/
def exSum1 : Machine.Summary :=
  resSummary (Machine.RunInventory exInv1)

/-- An inventory input with one CPU-section marker in the processor output
and three in the video output. -/
def exInv2 : Machine.InvInput :=
  { exInv1 with
    processorOut := ["*-cpu", "product: Xeon"]
    videoOut := ["*-cpu", "*-cpu", "*-cpu"] }

/-- An inventory input with two CPU-section markers in the processor output
and none anywhere else. -/
def exInv3 : Machine.InvInput :=
  { exInv1 with
    processorOut := ["*-cpu", "product: Xeon", "*-cpu"] }

/-- The summary `exInv3` extracts. -/
def exSum3 : Machine.Summary :=
  resSummary (Machine.RunInventory exInv3)

/-- An inventory input whose bios output reports the release date in a
format other than `MM/DD/YYYY`. -/
def exInv4 : Machine.InvInput :=
  { exInv1 with biosOut := ["Release Date: 2008-03-14"] }

/-- A session whose `comp_names` and `comp_set` attributes exist (as the
parser docstrings assume), so that the stress-family loop can run. -/
def exStressSession : LogParser.SessionSt :=
  { LogParser.initSession with comp_names := some [], comp_set := some [] }

/-- A stress log with a duration line, a repeated test name with two
outcomes, and a second test. -/
def exStressLog : List String :=
  ["Stress Test: 24", "fork01 PASS", "fork01 FAIL", "mem02 PASS"]

/-- The session and overrides produced by parsing `exStressLog`. -/
def exStressRes : LogParser.SessionSt × LogParser.Mach :=
  match LogParser.ParseStressLog "Stress" exStressLog exStressSession
      LogParser.initMach with
  | Except.ok r => r
  | Except.error _ => (LogParser.initSession, LogParser.initMach)

/-!  ## Dictionary lemmas -/

theorem dictGet?_set_self {α : Type} (d : List (String × α)) (k : String) (v : α) :
    dictGet? (dictSet d k v) k = some v := by
  induction d with
  | nil => simp [dictSet, dictGet?]
  | cons p rest ih =>
    by_cases h : p.1 = k
    · simp [dictSet, h, dictGet?]
    · simp [dictSet, h, dictGet?, ih]

theorem dictGet?_set_ne {α : Type} (d : List (String × α)) {k k' : String}
    (v : α) (h : k' ≠ k) :
    dictGet? (dictSet d k v) k' = dictGet? d k' := by
  induction d with
  | nil => simp [dictSet, dictGet?, Ne.symm h]
  | cons p rest ih =>
    by_cases hp : p.1 = k
    · simp [dictSet, hp, dictGet?, Ne.symm h]
    · simp [dictSet, hp, dictGet?, ih]

theorem mem_dictKeys_set {α : Type} (d : List (String × α)) (k k' : String)
    (v : α) (h : k' ∈ dictKeys d) : k' ∈ dictKeys (dictSet d k v) := by
  induction d with
  | nil => simp [dictKeys] at h
  | cons p rest ih =>
    simp only [dictKeys, List.map_cons, List.mem_cons] at h
    by_cases hp : p.1 = k
    · simp only [dictSet, if_pos hp, dictKeys, List.map_cons, List.mem_cons]
      rcases h with h | h
      · exact Or.inl (h.trans hp)
      · exact Or.inr h
    · simp only [dictSet, if_neg hp, dictKeys, List.map_cons, List.mem_cons]
      rcases h with h | h
      · exact Or.inl h
      · exact Or.inr (ih h)

theorem mem_dictKeys_set_iff {α : Type} (d : List (String × α)) (k k' : String)
    (v : α) : k' ∈ dictKeys (dictSet d k v) ↔ k' = k ∨ k' ∈ dictKeys d := by
  induction d with
  | nil => simp [dictSet, dictKeys]
  | cons p rest ih =>
    by_cases hp : p.1 = k
    · simp only [dictSet, if_pos hp, dictKeys, List.map_cons, List.mem_cons]
      constructor
      · rintro (h | h)
        · exact Or.inl h
        · exact Or.inr (Or.inr h)
      · rintro (h | h | h)
        · exact Or.inl h
        · exact Or.inl (h.trans hp)
        · exact Or.inr h
    · simp only [dictSet, if_neg hp, dictKeys, List.map_cons, List.mem_cons, ih]
      tauto

theorem mem_dictKeys_iff_get {α : Type} (d : List (String × α)) (k : String) :
    k ∈ dictKeys d ↔ (dictGet? d k).isSome := by
  induction d with
  | nil => simp [dictKeys, dictGet?]
  | cons p rest ih =>
    simp only [dictKeys, List.map_cons, List.mem_cons, dictGet?]
    by_cases hp : p.1 = k
    · simp [hp]
    · rw [if_neg hp]
      constructor
      · rintro (h | h)
        · exact absurd h.symm hp
        · exact ih.mp h
      · intro h
        exact Or.inr (ih.mpr h)

/-!  ## Lemmas about the inventory scan -/

namespace Machine

theorem sGet_set_self (s : Summary) (k : String) (v : PyVal) :
    sGet (dictSet s k v) k = v := by
  simp [sGet, dictGet?_set_self]

theorem sGet_set_ne (s : Summary) {k k' : String} (v : PyVal) (h : k' ≠ k) :
    sGet (dictSet s k v) k' = sGet s k' := by
  simp [sGet, dictGet?_set_ne s v h]

theorem sGet_procLine_preserve (line : String) (k : String) :
    ∀ (comp : List (String × String)) (s : Summary),
      (∀ p ∈ comp, p.1 = k → strContains line p.2 = false) →
      sGet (procLine comp s line) k = sGet s k := by
  intro comp
  induction comp with
  | nil => intro s _; rfl
  | cons p rest ih =>
    intro s h
    have hrest : ∀ q ∈ rest, q.1 = k → strContains line q.2 = false :=
      fun q hq => h q (List.mem_cons_of_mem p hq)
    by_cases hk : p.1 = k
    · have hc : strContains line p.2 = false := h p (List.mem_cons_self p rest) hk
      simp only [procLine, hc, Bool.false_and, Bool.false_eq_true, if_false]
      exact ih s hrest
    · cases hb : (strContains line p.2 && (sGet s p.1).falsy) with
      | false =>
        simp only [procLine, hb, Bool.false_eq_true, if_false]
        exact ih s hrest
      | true =>
        simp only [procLine, hb, if_true]
        rw [ih _ hrest, sGet_set_ne s _ (fun he => hk he.symm)]

theorem sGet_procLine_nonfalsy (line : String) (k : String) :
    ∀ (comp : List (String × String)) (s : Summary),
      (sGet s k).falsy = false →
      sGet (procLine comp s line) k = sGet s k := by
  intro comp
  induction comp with
  | nil => intro s _; rfl
  | cons p rest ih =>
    intro s hf
    cases hb : (strContains line p.2 && (sGet s p.1).falsy) with
    | false =>
      simp only [procLine, hb, Bool.false_eq_true, if_false]
      exact ih s hf
    | true =>
      simp only [procLine, hb, if_true]
      have hk : p.1 ≠ k := by
        intro he
        rw [he] at hb
        rw [Bool.and_eq_true] at hb
        rw [hb.2] at hf
        cases hf
      rw [ih _ (by rw [sGet_set_ne s _ (fun he => hk he.symm)]; exact hf),
        sGet_set_ne s _ (fun he => hk he.symm)]

theorem sGet_procLine_commit (line : String) :
    ∀ (comp : List (String × String)) (s : Summary) (k m : String),
      (dictKeys comp).Nodup → (k, m) ∈ comp →
      (sGet s k).falsy = true → strContains line m = true →
      sGet (procLine comp s line) k = PyVal.str (pyLstrip (pyField1 line m)) := by
  intro comp
  induction comp with
  | nil => intro s k m _ hmem; cases hmem
  | cons p rest ih =>
    intro s k m hnd hmem hf hc
    have hhead : p.1 ∉ dictKeys rest := by
      have := List.nodup_cons.mp hnd
      exact this.1
    rcases List.mem_cons.mp hmem with heq | hmem'
    · cases heq
      simp only [procLine, hc, hf, Bool.and_self, if_true]
      rw [sGet_procLine_preserve line k rest _
        (fun q hq hqk => by
          have hqm : q.1 ∈ dictKeys rest := List.mem_map_of_mem Prod.fst hq
          rw [hqk] at hqm
          exact absurd hqm hhead)]
      exact sGet_set_self s k _
    · have hk : p.1 ≠ k := by
        intro he
        exact hhead (he ▸ List.mem_map_of_mem Prod.fst hmem')
      have hnd' : (dictKeys rest).Nodup := (List.nodup_cons.mp hnd).2
      cases hb : (strContains line p.2 && (sGet s p.1).falsy) with
      | false =>
        simp only [procLine, hb, Bool.false_eq_true, if_false]
        exact ih s k m hnd' hmem' hf hc
      | true =>
        simp only [procLine, hb, if_true]
        exact ih _ k m hnd' hmem'
          (by rw [sGet_set_ne s _ (fun he => hk he.symm)]; exact hf) hc

theorem invScan_fst (comp : List (String × String)) :
    ∀ (out : List String) (c : Nat) (s : Summary),
      (invScan comp out c s).1 = c + countCpu out := by
  intro out
  induction out with
  | nil => intro c s; simp [invScan, countCpu]
  | cons line rest ih =>
    intro c s
    cases hb : strContains line cpuMarker with
    | false =>
      have hcc : countCpu (line :: rest) = countCpu rest := by
        simp [countCpu, List.filter_cons, hb]
      simp only [invScan, hb, Bool.false_eq_true, if_false]
      rw [ih, hcc]
    | true =>
      have hcc : countCpu (line :: rest) = countCpu rest + 1 := by
        simp [countCpu, List.filter_cons, hb]
      simp only [invScan, hb, if_true]
      rw [ih, hcc]
      omega

theorem sGet_invScan_preserve (comp : List (String × String)) (k : String) :
    ∀ (out : List String) (c : Nat) (s : Summary),
      (∀ line ∈ out, ∀ p ∈ comp, p.1 = k → strContains line p.2 = false) →
      sGet (invScan comp out c s).2 k = sGet s k := by
  intro out
  induction out with
  | nil => intro c s _; rfl
  | cons line rest ih =>
    intro c s h
    simp only [invScan]
    rw [ih _ _ (fun l hl => h l (List.mem_cons_of_mem line hl)),
      sGet_procLine_preserve line k comp s (h line (List.mem_cons_self line rest))]

theorem sGet_invScan_nonfalsy (comp : List (String × String)) (k : String) :
    ∀ (out : List String) (c : Nat) (s : Summary),
      (sGet s k).falsy = false →
      sGet (invScan comp out c s).2 k = sGet s k := by
  intro out
  induction out with
  | nil => intro c s _; rfl
  | cons line rest ih =>
    intro c s hf
    simp only [invScan]
    have hp := sGet_procLine_nonfalsy line k comp s hf
    rw [ih _ _ (by rw [hp]; exact hf), hp]

theorem sGet_GetInventory_preserve (comp : List (String × String))
    (out : List String) (s : Summary) (k : String) (hk : k ≠ "cpu_qty")
    (h : ∀ line ∈ out, ∀ p ∈ comp, p.1 = k → strContains line p.2 = false) :
    sGet (GetInventory comp out s) k = sGet s k := by
  unfold GetInventory
  by_cases hc : 0 < (invScan comp out 0 s).1
  · rw [if_pos hc, sGet_set_ne _ _ hk]
    exact sGet_invScan_preserve comp k out 0 s h
  · rw [if_neg hc]
    exact sGet_invScan_preserve comp k out 0 s h

theorem sGet_GetInventory_nonfalsy (comp : List (String × String))
    (out : List String) (s : Summary) (k : String) (hk : k ≠ "cpu_qty")
    (hf : (sGet s k).falsy = false) :
    sGet (GetInventory comp out s) k = sGet s k := by
  unfold GetInventory
  by_cases hc : 0 < (invScan comp out 0 s).1
  · rw [if_pos hc, sGet_set_ne _ _ hk]
    exact sGet_invScan_nonfalsy comp k out 0 s hf
  · rw [if_neg hc]
    exact sGet_invScan_nonfalsy comp k out 0 s hf

theorem sGet_GetInventory_cpu (comp : List (String × String))
    (out : List String) (s : Summary)
    (hcomp : ∀ p ∈ comp, p.1 ≠ "cpu_qty") :
    sGet (GetInventory comp out s) "cpu_qty" =
      (if 0 < countCpu out then PyVal.int (countCpu out)
       else sGet s "cpu_qty") := by
  have hrw : GetInventory comp out s =
      (if 0 < (invScan comp out 0 s).1 then
        dictSet (invScan comp out 0 s).2 "cpu_qty" (PyVal.int (invScan comp out 0 s).1)
      else (invScan comp out 0 s).2) := rfl
  rw [hrw, invScan_fst comp out 0 s]
  simp only [Nat.zero_add]
  by_cases hc : 0 < countCpu out
  · rw [if_pos hc, if_pos hc, sGet_set_self]
  · rw [if_neg hc, if_neg hc]
    exact sGet_invScan_preserve comp "cpu_qty" out 0 s
      (fun line _ p hp hpk => absurd hpk (hcomp p hp))

theorem mem_keys_procLine (line : String) (k : String) :
    ∀ (comp : List (String × String)) (s : Summary),
      k ∈ dictKeys s → k ∈ dictKeys (procLine comp s line) := by
  intro comp
  induction comp with
  | nil => intro s h; exact h
  | cons p rest ih =>
    intro s h
    simp only [procLine]
    by_cases hb : (strContains line p.2 && (sGet s p.1).falsy) = true
    · rw [if_pos hb]
      exact ih _ (mem_dictKeys_set s p.1 k _ h)
    · rw [if_neg hb]
      exact ih _ h

theorem mem_keys_invScan (comp : List (String × String)) (k : String) :
    ∀ (out : List String) (c : Nat) (s : Summary),
      k ∈ dictKeys s → k ∈ dictKeys (invScan comp out c s).2 := by
  intro out
  induction out with
  | nil => intro c s h; exact h
  | cons line rest ih =>
    intro c s h
    simp only [invScan]
    exact ih _ _ (mem_keys_procLine line k comp s h)

theorem mem_keys_GetInventory (comp : List (String × String))
    (out : List String) (s : Summary) (k : String)
    (h : k ∈ dictKeys s) : k ∈ dictKeys (GetInventory comp out s) := by
  have hrw : GetInventory comp out s =
      (if 0 < (invScan comp out 0 s).1 then
        dictSet (invScan comp out 0 s).2 "cpu_qty" (PyVal.int (invScan comp out 0 s).1)
      else (invScan comp out 0 s).2) := rfl
  rw [hrw]
  by_cases hc : 0 < (invScan comp out 0 s).1
  · rw [if_pos hc]
    exact mem_dictKeys_set _ _ _ _ (mem_keys_invScan comp k out 0 s h)
  · rw [if_neg hc]
    exact mem_keys_invScan comp k out 0 s h

theorem sGet_scanPairs_preserve (k : String) :
    ∀ (prs : List (List (String × String) × List String)) (s : Summary),
      k ≠ "cpu_qty" →
      (∀ pr ∈ prs, ∀ line ∈ pr.2, ∀ p ∈ pr.1,
        p.1 = k → strContains line p.2 = false) →
      sGet (scanPairs prs s) k = sGet s k := by
  intro prs
  induction prs with
  | nil => intro s _ _; rfl
  | cons pr rest ih =>
    intro s hk h
    simp only [scanPairs]
    rw [ih _ hk (fun q hq => h q (List.mem_cons_of_mem pr hq)),
      sGet_GetInventory_preserve pr.1 pr.2 s k hk
        (fun line hl p hp => h pr (List.mem_cons_self pr rest) line hl p hp)]

theorem sGet_scanPairs_nonfalsy (k : String) :
    ∀ (prs : List (List (String × String) × List String)) (s : Summary),
      k ≠ "cpu_qty" → (sGet s k).falsy = false →
      sGet (scanPairs prs s) k = sGet s k := by
  intro prs
  induction prs with
  | nil => intro s _ _; rfl
  | cons pr rest ih =>
    intro s hk hf
    simp only [scanPairs]
    have hg := sGet_GetInventory_nonfalsy pr.1 pr.2 s k hk hf
    rw [ih _ hk (by rw [hg]; exact hf), hg]

theorem mem_keys_scanPairs (k : String) :
    ∀ (prs : List (List (String × String) × List String)) (s : Summary),
      k ∈ dictKeys s → k ∈ dictKeys (scanPairs prs s) := by
  intro prs
  induction prs with
  | nil => intro s h; exact h
  | cons pr rest ih =>
    intro s h
    simp only [scanPairs]
    exact ih _ (mem_keys_GetInventory pr.1 pr.2 s k h)

theorem sGet_videoLoop_preserve (k : String) (hk : k ≠ "video_memory") :
    ∀ (l : List String) (s s' : Summary),
      videoLoop l s = Except.ok s' → sGet s' k = sGet s k := by
  intro l
  induction l with
  | nil =>
    intro s s' h
    cases h
    rfl
  | cons line rest ih =>
    intro s s' h
    by_cases hc : strContains line " prefetchable" = true
    · simp only [videoLoop, hc, if_true] at h
      cases hm : pySplitOn line "=" with
      | nil => rw [hm] at h; cases h
      | cons a tl =>
        cases tl with
        | nil => rw [hm] at h; cases h
        | cons f1 tl2 =>
          rw [hm] at h
          rw [ih _ _ h, sGet_set_ne _ _ hk]
    · simp only [videoLoop, hc] at h
      rw [if_neg] at h
      · exact ih _ _ h
      · simp [hc]

theorem mem_keys_videoLoop (k : String) :
    ∀ (l : List String) (s s' : Summary),
      videoLoop l s = Except.ok s' → k ∈ dictKeys s → k ∈ dictKeys s' := by
  intro l
  induction l with
  | nil =>
    intro s s' h hm
    cases h
    exact hm
  | cons line rest ih =>
    intro s s' h hm
    by_cases hc : strContains line " prefetchable" = true
    · simp only [videoLoop, hc, if_true] at h
      cases hsp : pySplitOn line "=" with
      | nil => rw [hsp] at h; cases h
      | cons a tl =>
        cases tl with
        | nil => rw [hsp] at h; cases h
        | cons f1 tl2 =>
          rw [hsp] at h
          exact ih _ _ h (mem_dictKeys_set _ _ _ _ hm)
    · simp only [videoLoop, hc] at h
      rw [if_neg] at h
      · exact ih _ _ h hm
      · simp [hc]

theorem sGet_videoFallback_preserve (lspci : List String) (s s' : Summary)
    (k : String) (hk : k ≠ "video_memory")
    (h : videoFallback lspci s = Except.ok s') : sGet s' k = sGet s k := by
  unfold videoFallback at h
  by_cases hf : (sGet s "video_memory").falsy = true
  · rw [if_pos hf] at h
    exact sGet_videoLoop_preserve k hk lspci s s' h
  · rw [if_neg hf] at h
    cases h
    rfl

theorem mem_keys_videoFallback (lspci : List String) (s s' : Summary)
    (k : String) (h : videoFallback lspci s = Except.ok s')
    (hm : k ∈ dictKeys s) : k ∈ dictKeys s' := by
  unfold videoFallback at h
  by_cases hf : (sGet s "video_memory").falsy = true
  · rw [if_pos hf] at h
    exact mem_keys_videoLoop k lspci s s' h hm
  · rw [if_neg hf] at h
    cases h
    exact hm

theorem sGet_fillUnknown (k : String) :
    ∀ (s : Summary), k ∈ dictKeys s →
      sGet (fillUnknown s) k =
        (if (sGet s k).falsy then PyVal.str "unknown" else sGet s k) := by
  intro s
  induction s with
  | nil => intro h; simp [dictKeys] at h
  | cons p rest ih =>
    intro h
    have hcons : fillUnknown (p :: rest) =
        (if p.2.falsy = true then (p.1, PyVal.str "unknown") else p) ::
          fillUnknown rest := rfl
    rw [hcons]
    by_cases hp : p.1 = k
    · have h2 : sGet (p :: rest) k = p.2 := by
        simp [sGet, dictGet?, hp]
      by_cases hf : p.2.falsy = true
      · rw [if_pos hf]
        have h1 : sGet ((p.1, PyVal.str "unknown") :: fillUnknown rest) k =
            PyVal.str "unknown" := by
          simp [sGet, dictGet?, hp]
        rw [h1, h2, if_pos hf]
      · rw [if_neg hf]
        have h1 : sGet (p :: fillUnknown rest) k = p.2 := by
          simp [sGet, dictGet?, hp]
        rw [h1, h2, if_neg hf]
    · have hmem : k ∈ dictKeys rest := by
        simp only [dictKeys, List.map_cons, List.mem_cons] at h
        rcases h with h | h
        · exact absurd h.symm hp
        · exact h
      have htail : sGet (p :: rest) k = sGet rest k := by
        simp [sGet, dictGet?, hp]
      have hstep : sGet ((if p.2.falsy = true then (p.1, PyVal.str "unknown")
          else p) :: fillUnknown rest) k = sGet (fillUnknown rest) k := by
        by_cases hf : p.2.falsy = true
        · rw [if_pos hf]
          simp [sGet, dictGet?, hp]
        · rw [if_neg hf]
          simp [sGet, dictGet?, hp]
      rw [hstep, htail]
      exact ih hmem

theorem mem_keys_fillUnknown (s : Summary) (k : String)
    (h : k ∈ dictKeys s) : k ∈ dictKeys (fillUnknown s) := by
  induction s with
  | nil => simp [dictKeys] at h
  | cons p rest ih =>
    simp only [dictKeys, List.map_cons, List.mem_cons] at h
    by_cases hf : p.2.falsy = true
    · simp only [fillUnknown, List.map_cons, if_pos hf, dictKeys,
        List.mem_cons]
      rcases h with h | h
      · exact Or.inl h
      · exact Or.inr (ih h)
    · simp only [fillUnknown, List.map_cons, if_neg hf, dictKeys,
        List.mem_cons]
      rcases h with h | h
      · exact Or.inl h
      · exact Or.inr (ih h)

theorem countCpu_eq_zero {out : List String}
    (h : ∀ line ∈ out, strContains line cpuMarker = false) :
    countCpu out = 0 := by
  unfold countCpu
  rw [List.length_eq_zero, List.filter_eq_nil_iff]
  intro a ha
  rw [h a ha]
  exact Bool.false_ne_true

/-- Inversion of a successful `RunInventory`: names the intermediate
summaries (after the scan and `uname` assignments, after the video fallback)
and the normalized date. -/
theorem RunInventory_ok_inv (i : InvInput) (s : Summary)
    (hok : RunInventory i = Except.ok s) :
    ∃ (s2 : Summary) (bd nd : String),
      videoFallback i.lspciOut
        (dictSet (dictSet (dictSet (scanPairs (compOutPairs i) initSummary)
          "node" (PyVal.str i.unameNode))
          "kernel" (PyVal.str i.unameKernel))
          "arch" (PyVal.str i.unameArch)) = Except.ok s2 ∧
      sGet (fillUnknown s2) "bios_date" = PyVal.str bd ∧
      normBiosDate bd = some nd ∧
      s = dictSet (fillUnknown s2) "bios_date" (PyVal.str nd) := by
  unfold RunInventory at hok
  split at hok
  · cases hok
  · rename_i sP hpre
    split at hok
    · rename_i bd hbd
      split at hok
      · rename_i nd hnd
        simp only [Machine.preNormalize] at hpre
        split at hpre
        · cases hpre
        · rename_i s2 hvf
          cases hpre
          cases hok
          exact ⟨s2, bd, nd, hvf, hbd, hnd, rfl⟩
      · cases hok
    · cases hok

end Machine

/-!  ## Claims C1, C3, C4, C8: the machine-fact extractor -/

/-- C1, counterexample.  The claim predicts that once a key's value has been
committed from the first matching line, later lines leave it unchanged, and
that the committed value is whitespace-trimmed.  On the processor component:
the line `"product:"` commits `cpu_model = ""` (the claim's trimmed value for
that line), yet the later line `"product: Xeon"` overwrites it, because the
source guards the store with the falsy test `if not self.summary[item]`,
which cannot distinguish a committed empty string from an unset key.  And on
the single line `"product: Xeon  "` the committed value keeps its trailing
blanks, because the source applies `lstrip()` only. -/
theorem c1_counterexample :
    Machine.sGet (Machine.procLine Machine.processor Machine.initSummary
      "product:") "cpu_model" = PyVal.str "" ∧
    Machine.sGet (Machine.GetInventory Machine.processor
      ["product:", "product: Xeon"] Machine.initSummary) "cpu_model" =
      PyVal.str "Xeon" ∧
    PyVal.str "Xeon" ≠ PyVal.str "" ∧
    Machine.sGet (Machine.GetInventory Machine.processor ["product: Xeon  "]
      Machine.initSummary) "cpu_model" = PyVal.str "Xeon  " ∧
    PyVal.str "Xeon  " ≠ PyVal.str (pyStrip " Xeon  ") := by
  decide

/-- C1 (amended): during the component scan, when a key's current value is
falsy (unset or empty) and the line contains the key's marker, the committed
value is `line.split(marker)[1].lstrip()` — the left-trimmed text between the
first occurrence of the marker and the next (or the end of the line);
a key whose current value is non-falsy is never overwritten, by any later
line or later component (`cpu_qty` aside, which the CPU-marker counter may
overwrite). -/
theorem c1_amended :
    (∀ (comp : List (String × String)) (line : String) (s : Machine.Summary)
        (k m : String),
      (dictKeys comp).Nodup → (k, m) ∈ comp →
      (Machine.sGet s k).falsy = true → strContains line m = true →
      Machine.sGet (Machine.procLine comp s line) k =
        PyVal.str (pyLstrip (pyField1 line m))) ∧
    (∀ (comp : List (String × String)) (line : String) (s : Machine.Summary)
        (k : String),
      (Machine.sGet s k).falsy = false →
      Machine.sGet (Machine.procLine comp s line) k = Machine.sGet s k) ∧
    (∀ (comp : List (String × String)) (out : List String)
        (s : Machine.Summary) (k : String),
      k ≠ "cpu_qty" → (Machine.sGet s k).falsy = false →
      Machine.sGet (Machine.GetInventory comp out s) k = Machine.sGet s k) := by
  refine ⟨?_, ?_, ?_⟩
  · intro comp line s k m hnd hmem hf hc
    exact Machine.sGet_procLine_commit line comp s k m hnd hmem hf hc
  · intro comp line s k hf
    exact Machine.sGet_procLine_nonfalsy line k comp s hf
  · intro comp out s k hk hf
    exact Machine.sGet_GetInventory_nonfalsy comp out s k hk hf

/-- Witness for C1 (amended) at concrete inputs: committing `cpu_model` from
`"product: Xeon"`, and preserving an already-set `nic_vendor` through a
matching line of a later component. -/
theorem c1_amended_witness :
    Machine.sGet (Machine.procLine Machine.processor Machine.initSummary
      "product: Xeon") "cpu_model" = PyVal.str "Xeon" ∧
    Machine.sGet (Machine.GetInventory Machine.nic ["vendor: Intel"]
      (dictSet Machine.initSummary "nic_vendor" (PyVal.str "Broadcom")))
      "nic_vendor" = PyVal.str "Broadcom" := by
  constructor
  · have h := c1_amended.1 Machine.processor "product: Xeon"
      Machine.initSummary "cpu_model" "product:"
      (by decide) (by decide) (by decide) (by decide)
    exact h.trans (by decide)
  · have h := c1_amended.2.2 Machine.nic ["vendor: Intel"]
      (dictSet Machine.initSummary "nic_vendor" (PyVal.str "Broadcom"))
      "nic_vendor" (by decide) (by decide)
    exact h.trans (by decide)

/-- C3, counterexample.  The claim says a key is `"unknown"` **only if** no
component output contained its marker.  In `exInv1` the processor output is
the single line `"product:"`, which does contain `cpu_model`'s marker
`product:`; the committed value is the empty string, which the fill pass at
lines 1124-1126 cannot distinguish from an unset key, so the final value is
the sentinel `"unknown"` even though the marker occurred. -/
theorem c3_counterexample :
    Machine.RunInventory exInv1 = Except.ok exSum1 ∧
    ("cpu_model", "product:") ∈ Machine.processor ∧
    "product:" ∈ exInv1.processorOut ∧
    strContains "product:" "product:" = true ∧
    Machine.sGet exSum1 "cpu_model" = PyVal.str "unknown" := by
  refine ⟨rfl, by decide, by decide, by decide, by decide⟩

/-- C3 (amended): after a completed extraction every canonical fact key is
still present; and a canonical key that starts unset, is none of the keys
written by the `uname`/`lspci` post-steps (`node`, `kernel`, `arch`,
`video_memory`), and whose markers occur on no line of the owning components'
outputs, ends with the value `"unknown"`.  (The converse direction of the
original claim fails: a marker line whose committed value is empty also
yields `"unknown"`, see the counterexample.) -/
theorem c3_amended (i : Machine.InvInput) (s : Machine.Summary) (k : String)
    (hok : Machine.RunInventory i = Except.ok s) :
    (∀ k' ∈ dictKeys Machine.initSummary, k' ∈ dictKeys s) ∧
    (k ∈ dictKeys Machine.initSummary →
     Machine.sGet Machine.initSummary k = PyVal.none →
     k ∉ (["node", "kernel", "arch", "video_memory"] : List String) →
     (∀ pr ∈ Machine.compOutPairs i, ∀ p ∈ pr.1, p.1 = k →
        ∀ line ∈ pr.2, strContains line p.2 = false) →
     Machine.sGet s k = PyVal.str "unknown") := by
  obtain ⟨s2, bd, nd, hvf, hbd, hnd, hs⟩ := Machine.RunInventory_ok_inv i s hok
  subst hs
  constructor
  · intro k' hk'
    refine mem_dictKeys_set _ _ _ _ ?_
    refine Machine.mem_keys_fillUnknown _ _ ?_
    refine Machine.mem_keys_videoFallback _ _ _ _ hvf ?_
    refine mem_dictKeys_set _ _ _ _ ?_
    refine mem_dictKeys_set _ _ _ _ ?_
    refine mem_dictKeys_set _ _ _ _ ?_
    exact Machine.mem_keys_scanPairs k' _ _ hk'
  · intro hkmem hkinit hkex hnomatch
    have hkcpu : k ≠ "cpu_qty" := by
      intro he
      rw [he] at hkinit
      exact absurd hkinit (by decide)
    simp only [List.mem_cons, List.not_mem_nil, or_false, not_or] at hkex
    obtain ⟨hknode, hkkernel, hkarch, hkvid⟩ := hkex
    -- value after the component scan
    have h0 : Machine.sGet
        (Machine.scanPairs (Machine.compOutPairs i) Machine.initSummary) k =
        PyVal.none := by
      rw [Machine.sGet_scanPairs_preserve k (Machine.compOutPairs i)
        Machine.initSummary hkcpu
        (fun pr hpr line hline p hp hpk =>
          hnomatch pr hpr p hp hpk line hline)]
      exact hkinit
    -- unchanged by the uname assignments
    have h1 : Machine.sGet (dictSet (dictSet (dictSet
        (Machine.scanPairs (Machine.compOutPairs i) Machine.initSummary)
        "node" (PyVal.str i.unameNode))
        "kernel" (PyVal.str i.unameKernel))
        "arch" (PyVal.str i.unameArch)) k = PyVal.none := by
      rw [Machine.sGet_set_ne _ _ hkarch, Machine.sGet_set_ne _ _ hkkernel,
        Machine.sGet_set_ne _ _ hknode]
      exact h0
    -- unchanged by the video fallback
    have h2 : Machine.sGet s2 k = PyVal.none := by
      rw [Machine.sGet_videoFallback_preserve _ _ _ k hkvid hvf]
      exact h1
    -- the fill pass sets it to "unknown"
    have hk2 : k ∈ dictKeys s2 := by
      refine Machine.mem_keys_videoFallback _ _ _ _ hvf ?_
      refine mem_dictKeys_set _ _ _ _ ?_
      refine mem_dictKeys_set _ _ _ _ ?_
      refine mem_dictKeys_set _ _ _ _ ?_
      exact Machine.mem_keys_scanPairs k _ _ hkmem
    have h3 : Machine.sGet (Machine.fillUnknown s2) k = PyVal.str "unknown" := by
      rw [Machine.sGet_fillUnknown k s2 hk2, h2]
      rfl
    -- the date-normalization write targets bios_date, which cannot be k here
    have hkbd : k ≠ "bios_date" := by
      intro he
      rw [he] at h3
      rw [h3] at hbd
      cases hbd
      have hu : Machine.normBiosDate "unknown" = Option.none := by decide
      rw [hu] at hnd
      cases hnd
    rw [Machine.sGet_set_ne _ _ hkbd]
    exact h3

/-- Witness for C3 (amended) at `exInv1` with the untouched key
`dsk_model`: it is filled with `"unknown"`, and `bios_vendor` stays present. -/
theorem c3_amended_witness :
    "bios_vendor" ∈ dictKeys exSum1 ∧
    Machine.sGet exSum1 "dsk_model" = PyVal.str "unknown" := by
  have h := c3_amended exInv1 exSum1 "dsk_model" rfl
  exact ⟨h.1 "bios_vendor" (by decide),
    h.2 (by decide) (by decide) (by decide) (by decide)⟩

/-- C4, counterexample.  Two failures of the claim: (1) with no CPU-section
marker anywhere (`exInv1`), the counter stays `0`, which the fill pass at
lines 1124-1126 treats as falsy — the final `cpu_qty` is the string
`"unknown"`, not `0`; (2) `GetInventory` counts `*-cpu` lines in **every**
component's output and overwrites `cpu_qty` whenever its per-component count
is positive (lines 1180-1181), so in `exInv2` (one marker in the processor
output, three in the later video output) the final value is `3`, not the
processor count `1`. -/
theorem c4_counterexample :
    Machine.countCpu exInv1.processorOut = 0 ∧
    Machine.sGet exSum1 "cpu_qty" = PyVal.str "unknown" ∧
    PyVal.str "unknown" ≠ PyVal.int 0 ∧
    Machine.countCpu exInv2.processorOut = 1 ∧
    (Machine.RunInventory exInv2).map (fun s => Machine.sGet s "cpu_qty") =
      Except.ok (PyVal.int 3) := by
  refine ⟨by decide, by decide, by decide, by decide, by decide⟩

/-- C4 (amended): after a completed extraction, (a) if no component output
contains a CPU-section marker line, `cpu_qty` ends as the string
`"unknown"` (the `0` counter is falsy and is filled); (b) if the processor
output contains at least one marker line and no later-scanned component
(nic, storage, system, video) does, `cpu_qty` equals the number of marker
lines of the processor output — independently of which `cpu_*` text fields
were resolved. -/
theorem c4_amended (i : Machine.InvInput) (s : Machine.Summary)
    (hok : Machine.RunInventory i = Except.ok s) :
    ((∀ pr ∈ Machine.compOutPairs i, ∀ line ∈ pr.2,
        strContains line Machine.cpuMarker = false) →
      Machine.sGet s "cpu_qty" = PyVal.str "unknown") ∧
    (Machine.countCpu i.processorOut ≠ 0 →
     (∀ line ∈ i.nicOut ++ i.storageOut ++ i.systemOut ++ i.videoOut,
        strContains line Machine.cpuMarker = false) →
      Machine.sGet s "cpu_qty" =
        PyVal.int (Machine.countCpu i.processorOut)) := by
  obtain ⟨s2, bd, nd, hvf, hbd, hnd, hs⟩ := Machine.RunInventory_ok_inv i s hok
  subst hs
  have hkbd : ("cpu_qty" : String) ≠ "bios_date" := by decide
  have hknode : ("cpu_qty" : String) ≠ "node" := by decide
  have hkkernel : ("cpu_qty" : String) ≠ "kernel" := by decide
  have hkarch : ("cpu_qty" : String) ≠ "arch" := by decide
  have hkvid : ("cpu_qty" : String) ≠ "video_memory" := by decide
  have hk2 : "cpu_qty" ∈ dictKeys s2 := by
    refine Machine.mem_keys_videoFallback _ _ _ _ hvf ?_
    refine mem_dictKeys_set _ _ _ _ ?_
    refine mem_dictKeys_set _ _ _ _ ?_
    refine mem_dictKeys_set _ _ _ _ ?_
    exact Machine.mem_keys_scanPairs "cpu_qty" _ _ (by decide)
  constructor
  · intro hnone
    have h0 : Machine.sGet
        (Machine.scanPairs (Machine.compOutPairs i) Machine.initSummary)
        "cpu_qty" = PyVal.int 0 := by
      simp only [Machine.compOutPairs, Machine.scanPairs]
      rw [Machine.sGet_GetInventory_cpu _ _ _ (by decide),
        Machine.sGet_GetInventory_cpu _ _ _ (by decide),
        Machine.sGet_GetInventory_cpu _ _ _ (by decide),
        Machine.sGet_GetInventory_cpu _ _ _ (by decide),
        Machine.sGet_GetInventory_cpu _ _ _ (by decide),
        Machine.sGet_GetInventory_cpu _ _ _ (by decide),
        Machine.sGet_GetInventory_cpu _ _ _ (by decide)]
      have hz : ∀ pr ∈ Machine.compOutPairs i, Machine.countCpu pr.2 = 0 :=
        fun pr hpr => Machine.countCpu_eq_zero (hnone pr hpr)
      simp only [Machine.compOutPairs, List.mem_cons, List.not_mem_nil,
        or_false] at hz
      rw [hz _ (Or.inr (Or.inr (Or.inr (Or.inr (Or.inr (Or.inr rfl)))))),
        hz _ (Or.inr (Or.inr (Or.inr (Or.inr (Or.inr (Or.inl rfl)))))),
        hz _ (Or.inr (Or.inr (Or.inr (Or.inr (Or.inl rfl))))),
        hz _ (Or.inr (Or.inr (Or.inr (Or.inl rfl)))),
        hz _ (Or.inr (Or.inr (Or.inl rfl))),
        hz _ (Or.inr (Or.inl rfl)),
        hz _ (Or.inl rfl)]
      decide
    have h2 : Machine.sGet s2 "cpu_qty" = PyVal.int 0 := by
      rw [Machine.sGet_videoFallback_preserve _ _ _ _ hkvid hvf,
        Machine.sGet_set_ne _ _ hkarch, Machine.sGet_set_ne _ _ hkkernel,
        Machine.sGet_set_ne _ _ hknode]
      exact h0
    rw [Machine.sGet_set_ne _ _ hkbd,
      Machine.sGet_fillUnknown "cpu_qty" s2 hk2, h2]
    rfl
  · intro hpos hlater
    have hcnt : 0 < Machine.countCpu i.processorOut := Nat.pos_of_ne_zero hpos
    have h0 : Machine.sGet
        (Machine.scanPairs (Machine.compOutPairs i) Machine.initSummary)
        "cpu_qty" = PyVal.int (Machine.countCpu i.processorOut) := by
      simp only [Machine.compOutPairs, Machine.scanPairs]
      have hmem : ∀ l ∈ i.nicOut, strContains l Machine.cpuMarker = false :=
        fun l hl => hlater l (by simp [hl])
      have hsto : ∀ l ∈ i.storageOut, strContains l Machine.cpuMarker = false :=
        fun l hl => hlater l (by simp [hl])
      have hsys : ∀ l ∈ i.systemOut, strContains l Machine.cpuMarker = false :=
        fun l hl => hlater l (by simp [hl])
      have hvidz : ∀ l ∈ i.videoOut, strContains l Machine.cpuMarker = false :=
        fun l hl => hlater l (by simp [hl])
      rw [Machine.sGet_GetInventory_cpu _ _ _ (by decide),
        if_neg (by rw [Machine.countCpu_eq_zero hvidz]; exact lt_irrefl 0),
        Machine.sGet_GetInventory_cpu _ _ _ (by decide),
        if_neg (by rw [Machine.countCpu_eq_zero hsys]; exact lt_irrefl 0),
        Machine.sGet_GetInventory_cpu _ _ _ (by decide),
        if_neg (by rw [Machine.countCpu_eq_zero hsto]; exact lt_irrefl 0),
        Machine.sGet_GetInventory_cpu _ _ _ (by decide),
        if_neg (by rw [Machine.countCpu_eq_zero hmem]; exact lt_irrefl 0),
        Machine.sGet_GetInventory_cpu _ _ _ (by decide),
        if_pos hcnt]
    have h2 : Machine.sGet s2 "cpu_qty" =
        PyVal.int (Machine.countCpu i.processorOut) := by
      rw [Machine.sGet_videoFallback_preserve _ _ _ _ hkvid hvf,
        Machine.sGet_set_ne _ _ hkarch, Machine.sGet_set_ne _ _ hkkernel,
        Machine.sGet_set_ne _ _ hknode]
      exact h0
    rw [Machine.sGet_set_ne _ _ hkbd,
      Machine.sGet_fillUnknown "cpu_qty" s2 hk2, h2]
    have hfal : (PyVal.int (Machine.countCpu i.processorOut)).falsy = false := by
      simp only [PyVal.falsy, decide_eq_false_iff_not]
      intro hz
      rw [Int.natCast_eq_zero] at hz
      exact hpos hz
    rw [hfal]
    rfl

/-- Witness for C4 (amended) at `exInv3`: the processor output holds two
CPU-section marker lines and no other output holds any, so `cpu_qty` is the
integer `2`. -/
theorem c4_amended_witness :
    Machine.sGet exSum3 "cpu_qty" = PyVal.int 2 := by
  have h := (c4_amended exInv3 exSum3 rfl).2 (by decide) (by decide)
  exact h.trans (by decide)

/-- C8, counterexample.  The claim says a `bios_date` that fails to parse is
reported while the rest of the extraction still completes.  In `exInv4` the
bios output reports `Release Date: 2008-03-14`, which `strptime` does not
accept as `%m/%d/%Y`; `RunInventory` raises the `ValueError` uncaught and
delivers no fact table at all — and the same happens whenever the bios
output is silent, because the filled value `"unknown"` does not parse
either. -/
theorem c8_counterexample :
    Machine.RunInventory exInv4 = Except.error PyError.valueError ∧
    Machine.RunInventory { exInv1 with biosOut := [] } =
      Except.error PyError.valueError := by
  refine ⟨by decide, by decide⟩

/-- C8 (amended): at the end of extraction, when the accumulated `bios_date`
parses as `MM/DD/YYYY` (month 1-12, day valid for the month, year 1900-9999
as `strptime`/`strftime` accept), the stored value is rewritten to
`YYYY/MM/DD`; when it does not parse, the `ValueError` propagates uncaught —
`RunInventory` aborts with the error instead of completing. -/
theorem c8_amended (i : Machine.InvInput) (sP : Machine.Summary) (bd : String)
    (hpre : Machine.preNormalize i = Except.ok sP)
    (hbd : Machine.sGet sP "bios_date" = PyVal.str bd) :
    (∀ nd, Machine.normBiosDate bd = some nd →
      Machine.RunInventory i =
        Except.ok (dictSet sP "bios_date" (PyVal.str nd))) ∧
    (Machine.normBiosDate bd = Option.none →
      Machine.RunInventory i = Except.error PyError.valueError) := by
  constructor
  · intro nd hnd
    simp only [Machine.RunInventory, hpre, hbd, hnd]
  · intro hnd
    simp only [Machine.RunInventory, hpre, hbd, hnd]

/-- Witness for C8 (amended) at `exInv1`: the bios output reports
`03/14/2008` and the final table holds `2008/03/14`. -/
theorem c8_amended_witness :
    Machine.RunInventory exInv1 =
      Except.ok (dictSet (resSummary (Machine.preNormalize exInv1))
        "bios_date" (PyVal.str "2008/03/14")) := by
  exact (c8_amended exInv1 (resSummary (Machine.preNormalize exInv1))
    "03/14/2008" rfl (by decide)).1 "2008/03/14" (by decide)

/-!  ## Lemmas about the log parser -/

namespace LogParser

/-- Classification is decided by the first line, in file order, containing
any signature: if the lines before index `j` contain no signature and line
`j`'s dialect is `d`, the scan returns `d`. -/
theorem GetFunction_first :
    ∀ (j : Nat) (log : List String) (d : String), j < log.length →
      (∀ line ∈ log.take j, lineDialect line = Option.none) →
      lineDialect (log.getD j "") = some d →
      GetFunction log = some d := by
  intro j
  induction j with
  | zero =>
    intro log d hlt _ hd
    cases log with
    | nil => cases hlt
    | cons l rest =>
      rw [List.getD_cons_zero] at hd
      simp only [GetFunction]
      rw [hd]
  | succ j ih =>
    intro log d hlt hpre hd
    cases log with
    | nil => cases hlt
    | cons l rest =>
      rw [List.getD_cons_succ] at hd
      have hl : lineDialect l = Option.none :=
        hpre l (by simp [List.take_succ_cons])
      simp only [GetFunction, hl]
      refine ih rest d (Nat.lt_of_succ_lt_succ hlt) ?_ hd
      intro line hline
      exact hpre line (by simp [List.take_succ_cons, hline])

/-- `_GetSubString` on a line without the separator returns the line. -/
theorem GetSubString_no_sep (line sep : String)
    (h : strContains line sep = false) : GetSubString line sep = line := by
  unfold strContains at h
  unfold GetSubString
  cases hm : pySplitOn line sep with
  | nil => simp only [hm]
  | cons a tl =>
    cases tl with
    | nil => simp only [hm]
    | cons b tl2 =>
      rw [hm] at h
      simp at h

/-- Tokens whose key differs from `k` never write `valuedict[k]`. -/
theorem smLoop_preserve (line : String) :
    ∀ (tok : List (String × String)) (vd : List (String × String)) (k : String),
      (∀ q ∈ tok, q.1 ≠ k) →
      dictGet? (smLoop tok line vd) k = dictGet? vd k := by
  intro tok
  induction tok with
  | nil => intro vd k _; rfl
  | cons p rest ih =>
    intro vd k h
    have hp : p.1 ≠ k := h p (List.mem_cons_self p rest)
    have hrest : ∀ q ∈ rest, q.1 ≠ k :=
      fun q hq => h q (List.mem_cons_of_mem p hq)
    simp only [smLoop]
    rw [ih _ k hrest]
    by_cases hc : strContains line p.2 = true
    · rw [if_pos hc]
      by_cases hn : p.1 = "node"
      · rw [if_pos hn, dictGet?_set_ne _ _ (fun he => hp he.symm)]
      · rw [if_neg hn]
        by_cases hst : p.1 = "start"
        · rw [if_pos hst, dictGet?_set_ne _ _ (fun he => hp he.symm)]
        · rw [if_neg hst, dictGet?_set_ne _ _ (fun he => hp he.symm)]
    · rw [if_neg hc]

/-- A token `(k, m)` other than the `node`/`start` specials, whose marker
occurs in the line, makes `_SetMachineName` store `_GetSubString(line)`
under `k`. -/
theorem smLoop_commit (line : String) :
    ∀ (tok : List (String × String)) (vd : List (String × String)) (k m : String),
      (dictKeys tok).Nodup → (k, m) ∈ tok → k ≠ "node" → k ≠ "start" →
      strContains line m = true →
      dictGet? (smLoop tok line vd) k = some (GetSubString line) := by
  intro tok
  induction tok with
  | nil => intro vd k m _ hmem; cases hmem
  | cons p rest ih =>
    intro vd k m hnd hmem hkn hks hc
    have hhead : p.1 ∉ dictKeys rest := (List.nodup_cons.mp hnd).1
    rcases List.mem_cons.mp hmem with heq | hmem'
    · cases heq
      simp only [smLoop, hc, if_true, if_neg hkn, if_neg hks]
      rw [smLoop_preserve line rest _ k
        (fun q hq he => by
          have hqm : q.1 ∈ dictKeys rest := List.mem_map_of_mem Prod.fst hq
          rw [he] at hqm
          exact hhead hqm)]
      exact dictGet?_set_self _ _ _
    · have hnd' : (dictKeys rest).Nodup := (List.nodup_cons.mp hnd).2
      simp only [smLoop]
      exact ih _ k m hnd' hmem' hkn hks hc

/-- The generic-stress result loop preserves the session invariants: a
duplicate-free test list, and agreement between the test list and the
outcome-map keys. -/
theorem stressLoop_invariant (logtype : String) :
    ∀ (log : List String) (st : SessionSt) (mach : Mach)
      (st' : SessionSt) (mach' : Mach),
      st.tests.Nodup → (∀ n, n ∈ st.tests ↔ n ∈ dictKeys st.results) →
      stressLoop logtype log st mach = Except.ok (st', mach') →
      st'.tests.Nodup ∧
        (∀ n, n ∈ st'.tests ↔ n ∈ dictKeys st'.results) := by
  intro log
  induction log with
  | nil =>
    intro st mach st' mach' hnd hsync h
    cases h
    exact ⟨hnd, hsync⟩
  | cons line rest ih =>
    intro st mach st' mach' hnd hsync h
    simp only [stressLoop] at h
    by_cases hr : IsTestResult line logtype = true
    · rw [if_pos hr] at h
      by_cases hl : 1 < (pySplitWS line).length
      · rw [if_pos hl] at h
        cases hcs : st.comp_set with
        | none => rw [hcs] at h; cases h
        | some cs =>
          rw [hcs] at h
          have hnd1 : (if (pySplitWS line).getD 0 "" ∈ st.tests then st.tests
              else st.tests ++ [(pySplitWS line).getD 0 ""]).Nodup := by
            by_cases hm : (pySplitWS line).getD 0 "" ∈ st.tests
            · rw [if_pos hm]
              exact hnd
            · rw [if_neg hm, List.nodup_append]
              refine ⟨hnd, List.nodup_singleton _, ?_⟩
              intro a ha hb
              rw [List.mem_singleton] at hb
              subst hb
              exact hm ha
          have hsync1 : ∀ n,
              n ∈ (if (pySplitWS line).getD 0 "" ∈ st.tests then st.tests
                else st.tests ++ [(pySplitWS line).getD 0 ""]) ↔
              n ∈ dictKeys (dictSet st.results ((pySplitWS line).getD 0 "")
                ((pySplitWS line).getD 1 "")) := by
            intro n
            rw [mem_dictKeys_set_iff]
            by_cases hm : (pySplitWS line).getD 0 "" ∈ st.tests
            · rw [if_pos hm]
              constructor
              · intro hn
                exact Or.inr ((hsync n).mp hn)
              · rintro (hn | hn)
                · subst hn; exact hm
                · exact (hsync n).mpr hn
            · rw [if_neg hm, List.mem_append, List.mem_singleton]
              constructor
              · rintro (hn | hn)
                · exact Or.inr ((hsync n).mp hn)
                · exact Or.inl hn
              · rintro (hn | hn)
                · exact Or.inr hn
                · exact Or.inl ((hsync n).mpr hn)
          exact ih _ mach st' mach' hnd1 hsync1 h
      · rw [if_neg hl] at h
        exact ih _ mach st' mach' hnd hsync h
    · rw [if_neg hr] at h
      by_cases hd : strContains line "Stress Test:" = true
      · rw [if_pos hd] at h
        exact ih _ mach st' mach' (by simpa using hnd) (by simpa using hsync) h
      · rw [if_neg hd] at h
        exact ih _ _ st' mach' hnd hsync h

end LogParser

/-!  ## Claims C2, C5, C6, C7, C9, C10: classification and parsing -/

/-- C2, counterexample.  `_GetFunction` iterates the `SUITE_CATEGORY`
**dict**, so a line containing two signatures is resolved by the hash
table's slot order, not by declaration order.  The line
`"Linux Test Project Stress Test"` contains both the LTP and the Stress
signatures; declaration order (Accept, DBench, LTP, … — the specification's
tie rule) would pick `LTP`, but the code's iteration order tries `Stress`
first and classifies the log as `Stress`. -/
theorem c2_counterexample :
    LogParser.GetFunction ["Linux Test Project Stress Test"] = some "Stress" ∧
    LogParser.GetFunctionDeclOrder ["Linux Test Project Stress Test"] =
      some "LTP" ∧
    (some "Stress" : Option String) ≠ some "LTP" := by
  refine ⟨by decide, by decide, by decide⟩

/-- C2 (amended): classification is decided by the first line, in file
order, containing any signature, but a line containing two signatures is
resolved by the dict's iteration order (UnixBench, Stress, LTP, Accept,
System_Stress, DBench, Net_Stress), not by declaration order.  A first
matching line containing `"Linux Test Project"` and no earlier-iterated
signature classifies as `LTP`; one containing `"BYTE UNIX Benchmarks"`
(iterated first) classifies as `UnixBench`. -/
theorem c2_amended :
    (∀ (log : List String) (j : Nat) (d : String), j < log.length →
      (∀ line ∈ log.take j, LogParser.lineDialect line = Option.none) →
      LogParser.lineDialect (log.getD j "") = some d →
      LogParser.GetFunction log = some d) ∧
    (∀ line : String, strContains line "Linux Test Project" = true →
      strContains line "BYTE UNIX Benchmarks" = false →
      strContains line "Stress Test" = false →
      LogParser.lineDialect line = some "LTP") ∧
    (∀ line : String, strContains line "BYTE UNIX Benchmarks" = true →
      LogParser.lineDialect line = some "UnixBench") := by
  refine ⟨?_, ?_, ?_⟩
  · intro log j d hlt hpre hd
    exact LogParser.GetFunction_first j log d hlt hpre hd
  · intro line h1 h2 h3
    simp [LogParser.lineDialect, LogParser.SUITE_CATEGORY, List.find?,
      h1, h2, h3]
  · intro line h1
    simp [LogParser.lineDialect, LogParser.SUITE_CATEGORY, List.find?, h1]

/-- Witness for C2 (amended): a noise line followed by the LTP signature
line classifies as LTP. -/
theorem c2_amended_witness :
    LogParser.GetFunction ["benchmark noise", "Linux Test Project results"] =
      some "LTP" :=
  c2_amended.1 ["benchmark noise", "Linux Test Project results"] 1 "LTP"
    (by decide) (by decide) (by decide)

/-- C5: the code bug.  Classification of the LTP log succeeds, but
`_ParseLTPLog`'s first statement `self.comp_names.append(comp)` touches an
attribute that `LogParser.__init__` (lines 1268-1302) never creates — the
parse raises `AttributeError` before reading a single line, so no test
list or outcome map is ever produced, contrary to the method's own
docstring ("The following variables will be set: …"). -/
theorem c5_code_bug :
    LogParser.GetFunction
      ["Linux Test Project", "testcase01 PASS", "testcase02 FAIL"] =
      some "LTP" ∧
    LogParser.ParseLTPLog "LTP"
      ["Linux Test Project", "testcase01 PASS", "testcase02 FAIL"]
      LogParser.initSession LogParser.initMach =
      Except.error PyError.attributeError := by
  refine ⟨by decide, by decide⟩

/-- C6, counterexample.  The PyreRing parser appends a test name on every
`TESTCASE:` line with no duplicate check (line 1419), and it runs to
completion on a fresh session (it never touches `comp_names`): a log whose
`TESTCASE:` lines repeat the same test yields a test list with duplicates,
refuting the claimed invariant for "every dialect parser". -/
theorem c6_counterexample :
    (LogParser.ParsePRLog "Accept"
      ["PyreRing Test Report", "TESTCASE: /suites/tc1 PASS",
        "TESTCASE: /suites/tc1 PASS"]
      LogParser.initSession LogParser.initMach).map (fun r => r.1.tests) =
      Except.ok ["tc1", "tc1"] ∧
    ¬ (["tc1", "tc1"] : List String).Nodup := by
  refine ⟨by decide, by decide⟩

/-- C6 (amended): the generic-stress parser does maintain the invariant:
whenever `_ParseStressLog` completes on a session whose test list is
duplicate-free and agrees with the outcome-map keys, the resulting test
list is still duplicate-free (insertion order, first seen wins) and still
agrees with the outcome-map keys.  (The LTP and PyreRing parsers append
unconditionally, so the duplicate-suppression half fails for them — see the
counterexample.) -/
theorem c6_amended (logtype : String) (log : List String)
    (st st' : LogParser.SessionSt) (mach mach' : LogParser.Mach)
    (hnd : st.tests.Nodup)
    (hsync : ∀ n, n ∈ st.tests ↔ n ∈ dictKeys st.results)
    (hok : LogParser.ParseStressLog logtype log st mach =
      Except.ok (st', mach')) :
    st'.tests.Nodup ∧ (∀ n, n ∈ st'.tests ↔ n ∈ dictKeys st'.results) := by
  unfold LogParser.ParseStressLog at hok
  split at hok
  · cases hok
  · rename_i cn hsome
    exact LogParser.stressLoop_invariant logtype log _ mach st' mach'
      (by simpa using hnd) (by simpa using hsync) hok

/-- Witness for C6 (amended): parsing `exStressLog` (with the `comp_names`/
`comp_set` attributes present, as the docstrings assume) yields the
duplicate-free test list and matching outcome keys. -/
theorem c6_amended_witness :
    exStressRes.1.tests.Nodup ∧
    (∀ n, n ∈ exStressRes.1.tests ↔ n ∈ dictKeys exStressRes.1.results) := by
  refine c6_amended "Stress" exStressLog exStressSession exStressRes.1
    LogParser.initMach exStressRes.2 (by decide) ?_ rfl
  intro n
  simp [exStressSession, LogParser.initSession, dictKeys]

/-- C7: the code bug.  On a log with no signature line, `_GetFunction` logs
the error and then — despite its docstring's `Raises: LogError` and the
comment "Create an error message and raise it" — returns `None` instead of
raising: the embedded scan yields no dialect at all.  (`ProcessLog` then
crashes at line 1359 with `TypeError: 'NoneType' object is not callable`
when it calls the returned value, rather than reporting an
`UnknownDialect`-style failure; `LogError` is not even defined in the
module.) -/
theorem c7_code_bug :
    LogParser.GetFunction ["kernel build starting", "all jobs finished"] =
      Option.none := by
  decide

/-- C9: the code bug.  `SendSummary`'s first statement constructs
`emailmessage.EmailMessage()`, but `ragent.py` never imports
`emailmessage` (lines 53-64), so the method raises `NameError` before its
counting loop (and `self.projid` on the next line is never assigned
either); no counters are ever delivered.  The tally loop itself, taken in
isolation, does count exactly as the claim states: `{a: PASS, b: FAIL,
c: PASS}` gives `(2, 1, 0, 0)` and a value outside the closed set
increments nothing. -/
theorem c9_code_bug :
    LogParser.SendSummary Option.none
      [("a", "PASS"), ("b", "FAIL"), ("c", "PASS")] =
      Except.error PyError.nameError ∧
    LogParser.tallyResults [("a", "PASS"), ("b", "FAIL"), ("c", "PASS")] =
      (2, 1, 0, 0) ∧
    LogParser.tallyResults
      [("a", "PASS"), ("b", "FAIL"), ("c", "PASS"), ("d", "SKIPPED")] =
      (2, 1, 0, 0) := by
  refine ⟨by decide, by decide, by decide⟩

/-- C10 (confirmed): `_GetSubString` is total — on a line without the
separator it logs and returns the whole line unchanged — and consequently
`_SetMachineName` stores the entire raw line (marker text included) for a
token whose marker matches a separator-less line. -/
theorem c10_confirmed :
    (∀ line sep : String, strContains line sep = false →
      LogParser.GetSubString line sep = line) ∧
    (∀ (tok : List (String × String)) (line k m : String),
      (dictKeys tok).Nodup → (k, m) ∈ tok → k ≠ "node" → k ≠ "start" →
      strContains line m = true → strContains line ":" = false →
      dictGet? (LogParser.SetMachineName tok line) k = some line) := by
  constructor
  · intro line sep h
    exact LogParser.GetSubString_no_sep line sep h
  · intro tok line k m hnd hmem hkn hks hc hsep
    unfold LogParser.SetMachineName
    rw [LogParser.smLoop_commit line tok [] k m hnd hmem hkn hks hc,
      LogParser.GetSubString_no_sep line ":" hsep]

/-- Witness for C10 at the `score` token, whose marker
`System Benchmarks Index Score` contains no `:`: the whole raw line is
stored. -/
theorem c10_confirmed_witness :
    LogParser.GetSubString "UnixBench results follow" =
      "UnixBench results follow" ∧
    dictGet? (LogParser.SetMachineName LogParser.tokens
      "System Benchmarks Index Score 520.3") "score" =
      some "System Benchmarks Index Score 520.3" := by
  constructor
  · exact c10_confirmed.1 "UnixBench results follow" ":" (by decide)
  · exact c10_confirmed.2 LogParser.tokens
      "System Benchmarks Index Score 520.3" "score"
      "System Benchmarks Index Score" (by decide) (by decide) (by decide)
      (by decide) (by decide) (by decide)

end Ragent
